import Mathlib

/-!
Shallow embedding of `snowbasin_watch.py` (the snowbasin-open-alerts
repository) and verification of the frozen claims about it.

Conventions of the embedding:
* Python strings are modelled as Lean `String` / `List Char`.  The character
  predicates (`isWordChar`, whitespace for `strip`, `lower`) are modelled for
  the ASCII range, which covers every string the program manipulates (the
  upstream normalisation collapses all special spaces to ASCII spaces).
* Python dicts are modelled as association lists built only through
  `dinsert` (Python `d[k] = v`), so their key lists are duplicate-free;
  `dget` models `d.get(k)`.
* `str.rfind` is modelled by `rfind` returning `Option Nat`
  (`none` plays the role of `-1`).
* `re.match(r".*\bGate$", name, re.IGNORECASE)` is modelled by
  `gateRegexMatch`, including the two textbook subtleties of Python regexes:
  `$` also matches just before a single trailing newline, and `.` does not
  match a newline.
* The file-system / JSON boundary of `load_state` is modelled by
  `Option (Option JVal)`: `none` is a missing state file, `some none` is a
  present file whose contents do not parse as JSON (where `json.load`
  raises `JSONDecodeError`), and `some (some j)` is a file parsing to the
  JSON value `j` (where a non-object makes `state.setdefault` raise
  `AttributeError`).  Errors are modelled with `Except`.
-/

/-! ## Character and string primitives used by the source -/

/-- ASCII whitespace stripped by Python `str.strip()`. -/
def pyIsSpace (c : Char) : Bool :=
  c == ' ' || c == '\t' || c == '\n' || c == '\r' || c == '\x0b' || c == '\x0c'

/-- Python `str.strip()` on the character list of a string. -/
def trimChars (s : List Char) : List Char :=
  ((s.dropWhile pyIsSpace).reverse.dropWhile pyIsSpace).reverse

/-- Tests whether `pat` is an initial segment of `s`. -/
def startsWith : List Char → List Char → Bool
  | _, [] => true
  | [], _ :: _ => false
  | c :: s, d :: p => c == d && startsWith s p

/-- All indices `i` (ascending) at which `pat` occurs in `s`. -/
def positionsOf (s pat : List Char) : List Nat :=
  (List.range (s.length + 1)).filter (fun i => startsWith (s.drop i) pat)

/-- Python `s.rfind(pat)`: the rightmost occurrence, `none` for `-1`. -/
def rfind (s pat : List Char) : Option Nat :=
  (positionsOf s pat).getLast?

/-- Python `pat in s` (substring containment). -/
def containsSub (s pat : List Char) : Bool :=
  (rfind s pat).isSome

/-- Recursion worker for `replaceAll`; the fuel is an upper bound on the
length of the string still to scan, so the `0` case is never reached when
started with the string's length. -/
def replaceAllAux (pat repl : List Char) : Nat → List Char → List Char
  | _, [] => []
  | 0, s => s
  | fuel + 1, c :: rest =>
    if !pat.isEmpty && startsWith (c :: rest) pat then
      repl ++ replaceAllAux pat repl fuel ((c :: rest).drop pat.length)
    else
      c :: replaceAllAux pat repl fuel rest

/-- Python `s.replace(pat, repl)` for a non-empty `pat`: replaces
non-overlapping occurrences left to right. -/
def replaceAll (pat repl s : List Char) : List Char :=
  replaceAllAux pat repl s.length s

/-- Python `str.lower()` on the ASCII range. -/
def lowerData (s : List Char) : List Char := s.map Char.toLower

/-- Python's regex word character `\w` on the ASCII range. -/
def isWordChar (c : Char) : Bool := c.isAlphanum || c == '_'

/-! ## Static marker vocabulary (source lines 22-37) -/

def LIFT_MARKERS : List (String × String) :=
  [("Open", "Lift Open"),
   ("Closed", "Lift Closed"),
   ("On Hold", "Lift On Hold"),
   ("Scheduled", "Lift Scheduled"),
   ("Delayed", "Lift Delayed")]

def TRAIL_MARKERS : List (String × String) :=
  [("Open", "Trail Open"),
   ("Closed", "Trail Closed"),
   ("Expected", "Trail Expected"),
   ("Delayed", "Trail Delayed")]

/-- The section-toggle sentinel substring used for grouping. -/
def TOGGLE : List Char := "Toggle accordion".data

def GATE_SPECIAL_NAMES : List String := ["The Wallow"]

/-! ## Line classifier: `parse_items_from_full_page` (source lines 67-95) -/

/-- One step of the inner `for status, token in markers` loop:
`idx = ln.rfind(token); if idx != -1 and (found is None or idx > found[1])`. -/
def markerStep (ln : List Char) (found : Option (String × Nat)) (m : String × String) :
    Option (String × Nat) :=
  match rfind ln m.2.data with
  | none => found
  | some idx =>
    match found with
    | none => some (m.1, idx)
    | some f => if f.2 < idx then some (m.1, idx) else found

/-- The winning `(status, index)` for a line: the marker whose rightmost
occurrence starts furthest to the right (ties keep the earlier marker). -/
def bestMarker (ln : List Char) (markers : List (String × String)) :
    Option (String × Nat) :=
  markers.foldl (markerStep ln) none

/-- The `for ln in lines` loop of `parse_items_from_full_page`, with the
running `group` made explicit. -/
def parseFrom (markers : List (String × String)) :
    List Char → List (List Char) → List (String × String × String)
  | _, [] => []
  | group, ln :: rest =>
    if containsSub ln TOGGLE then
      parseFrom markers (trimChars (replaceAll TOGGLE [] ln)) rest
    else
      match bestMarker ln markers with
      | none => parseFrom markers group rest
      | some si =>
        (String.mk group, String.mk (trimChars (ln.take si.2)), si.1) ::
          parseFrom markers group rest

/-- Models `parse_items_from_full_page(lines, kind)`: records are
`(group, name, status)` triples. -/
def parse_items_from_full_page (lines : List String) (kind : String) :
    List (String × String × String) :=
  parseFrom (if kind == "lifts" then LIFT_MARKERS else TRAIL_MARKERS)
    "Unknown".data (lines.map String.data)

/-! ## Gate disambiguator: `is_gate_row` (source lines 36-37, 98-105) -/

/-- The `\b` word boundary just before `Gate`: the prefix consumed by `.*`
is empty or ends in a non-word character. -/
def lastNonWord (pre : List Char) : Bool :=
  match pre.getLast? with
  | none => true
  | some c => !(isWordChar c)

/-- Models `re.match` of the gate pattern succeeding with `$` at the
very end of `s`: the last four characters spell `gate` case-insensitively,
the character before them (if any) is not a word character, and the prefix
contains no newline (`.` does not match a newline). -/
def gateRegexCore (s : List Char) : Bool :=
  decide (4 ≤ s.length) &&
  (lowerData (s.drop (s.length - 4)) == "gate".data) &&
  lastNonWord (s.take (s.length - 4)) &&
  (s.take (s.length - 4)).all (fun c => !(c == '\n'))

/-- Full `re.match(r".*\bGate$", s, re.IGNORECASE)`: Python's `$` matches at
the end of the string or just before a single trailing newline. -/
def gateRegexMatch (s : List Char) : Bool :=
  gateRegexCore s || (s.getLast? == some '\n' && gateRegexCore s.dropLast)

/-- Models `is_gate_row(group, name)` (source lines 98-105). -/
def is_gate_row (group name : String) : Bool :=
  if gateRegexMatch name.data then true
  else if GATE_SPECIAL_NAMES.contains name then true
  else if containsSub (lowerData group.data) "access gates".data then true
  else false

/-! ## Snapshot assembly (source lines 170-195) -/

/-- Python dict lookup `m.get(k)` on an association list. -/
def dget (m : List (String × String)) (k : String) : Option String :=
  (m.find? (fun p => p.1 == k)).map (·.2)

/-- Python dict assignment `m[k] = v`: overwrite in place, else append. -/
def dinsert (m : List (String × String)) (k v : String) : List (String × String) :=
  if m.any (fun p => p.1 == k) then
    m.map (fun p => if p.1 == k then (k, v) else p)
  else
    m ++ [(k, v)]

/-- Builds the entity key: the group and the name joined by the separator
of source line 178 and 181. -/
def entityKey (group name : String) : String := group ++ " :: " ++ name

structure Snapshot where
  lifts : List (String × String)
  trails : List (String × String)
  gates : List (String × String)
  deriving DecidableEq

/-- Performs the lifts-dict assignment at the entity key for one lift
record (source line 178). -/
def liftStep (m : List (String × String)) (r : String × String × String) :
    List (String × String) :=
  dinsert m (entityKey r.1 r.2.1) r.2.2

/-- One step of the trail-like loop: route the record to `gates` or
`trails` according to `is_gate_row`. -/
def tgStep (tg : List (String × String) × List (String × String))
    (r : String × String × String) :
    List (String × String) × List (String × String) :=
  if is_gate_row r.1 r.2.1 then
    (tg.1, dinsert tg.2 (entityKey r.1 r.2.1) r.2.2)
  else
    (dinsert tg.1 (entityKey r.1 r.2.1) r.2.2, tg.2)

/-- The current snapshot assembled by `main` from the classified records
(source lines 170-195): lifts keyed directly, trail-like records routed to
gates or trails by `is_gate_row`. -/
def buildSnapshot (lines : List String) : Snapshot :=
  { lifts := (parse_items_from_full_page lines "lifts").foldl liftStep []
    trails := ((parse_items_from_full_page lines "trails").foldl tgStep ([], [])).1
    gates := ((parse_items_from_full_page lines "trails").foldl tgStep ([], [])).2 }

/-! ## Snapshot differ and run outcome (source lines 146-227) -/

/-- Computes `sorted(k for k, v in cur.items() if v == "Open" and
prev.get(k) != "Open")` (source lines 200-202). -/
def newlyOpen (cur prev : List (String × String)) : List String :=
  ((cur.filter (fun p => p.2 == "Open" && !(dget prev p.1 == some "Open"))).map
      (·.1)).insertionSort (· ≤ ·)

/-- Computes the first-run flag of source line 198: all three previous
category mappings are empty. -/
def firstRun (prev : Snapshot) : Bool :=
  prev.lifts.isEmpty && prev.trails.isEmpty && prev.gates.isEmpty

inductive RunResult where
  | structuralError
  | initialized
  | noNewOpens
  | notified (liftsOpen trailsOpen gatesOpen : List String)
  deriving DecidableEq

/-- The control flow of `main` after the snapshot is assembled
(source lines 198-227): structural-failure raise, first-run return,
no-new-opens return, else a notification. -/
def runDecision (cur prev : Snapshot) : RunResult :=
  if cur.lifts.isEmpty && cur.trails.isEmpty && cur.gates.isEmpty then
    .structuralError
  else if firstRun prev then
    .initialized
  else if (newlyOpen cur.lifts prev.lifts).isEmpty &&
          (newlyOpen cur.trails prev.trails).isEmpty &&
          (newlyOpen cur.gates prev.gates).isEmpty then
    .noNewOpens
  else
    .notified (newlyOpen cur.lifts prev.lifts) (newlyOpen cur.trails prev.trails)
      (newlyOpen cur.gates prev.gates)

/-- Models `main` from line 195 on: the pair of (state written by `save_state`,
run outcome).  `save_state(current)` executes at line 204, before the
structural-failure check at line 207, so the saved state is always the
current snapshot. -/
def mainModel (cur prev : Snapshot) : Snapshot × RunResult :=
  (cur, runDecision cur prev)

/-! ## Persisted-state loading: `load_state` (source lines 108-116) -/

/-- A JSON value as far as `load_state` inspects one: a JSON object with
its field list, or any non-object value. -/
inductive JVal where
  | obj (fields : List (String × JVal))
  | other
  deriving Inhabited

/-- Python `dict.setdefault(k, v)`: add `(k, v)` only when `k` is absent. -/
def setdefault (fields : List (String × JVal)) (k : String) (v : JVal) :
    List (String × JVal) :=
  if fields.any (fun p => p.1 == k) then fields else fields ++ [(k, v)]

/-- Models `load_state()`.  The argument models the file-system/JSON boundary:
`none` = no state file, `some none` = file present but not valid JSON
(`json.load` raises), `some (some j)` = file parses to `j` (a non-object
has no `.setdefault` and raises). -/
def load_state : Option (Option JVal) → Except String (List (String × JVal))
  | none =>
    .ok [("lifts", JVal.obj []), ("trails", JVal.obj []), ("gates", JVal.obj [])]
  | some none => .error "json.JSONDecodeError"
  | some (some (JVal.obj fields)) =>
    .ok (setdefault (setdefault (setdefault fields "lifts" (JVal.obj []))
      "trails" (JVal.obj [])) "gates" (JVal.obj []))
  | some (some JVal.other) => .error "AttributeError: setdefault"

/-! ## Spec-side definitions (written from the spec's words, for comparison) -/

/-- Written from the claim's words for C6: the name ends with the whole
word `Gate`, case-insensitively (no newline allowance). -/
def endsWithWordGate_claim (name : List Char) : Bool :=
  decide (4 ≤ name.length) &&
  (lowerData (name.drop (name.length - 4)) == "gate".data) &&
  lastNonWord (name.take (name.length - 4))

/-- Written from the claim's words for C6: the full three-rule gate test
with rule 1 being a plain ends-with-the-word-Gate check. -/
def is_gate_row_claim (group name : String) : Bool :=
  endsWithWordGate_claim name.data || GATE_SPECIAL_NAMES.contains name ||
    containsSub (lowerData group.data) "access gates".data

/-- What `re.match(r".*\bGate$", s, re.IGNORECASE)` accepts, stated as a
decomposition: a newline-free prefix ending at a word boundary, the four
characters of `gate` case-insensitively, then nothing or one newline. -/
def GateWordMatch (s : List Char) : Prop :=
  ∃ pre g4 tail, s = pre ++ g4 ++ tail ∧ lowerData g4 = "gate".data ∧
    (tail = [] ∨ tail = ['\n']) ∧
    (pre = [] ∨ ∃ c, pre.getLast? = some c ∧ isWordChar c = false) ∧
    (∀ c ∈ pre, c ≠ '\n')


/-- Holds when an optional rightmost-occurrence index is
either absent or strictly left of `i`. -/
def optLt (o : Option Nat) (i : Nat) : Bool :=
  match o with
  | none => true
  | some j => decide (j < i)

/-! ## Helper lemmas about the line classifier -/

lemma parseFrom_cons (markers : List (String × String)) (g ln : List Char)
    (rest : List (List Char)) :
    parseFrom markers g (ln :: rest) =
      if containsSub ln TOGGLE then
        parseFrom markers (trimChars (replaceAll TOGGLE [] ln)) rest
      else
        match bestMarker ln markers with
        | none => parseFrom markers g rest
        | some si =>
          (String.mk g, String.mk (trimChars (ln.take si.2)), si.1) ::
            parseFrom markers g rest := rfl

lemma foldl_markerStep_no_occ (ln : List Char) :
    ∀ (ms : List (String × String)) (acc : Option (String × Nat)),
      (∀ p ∈ ms, rfind ln p.2.data = none) →
      ms.foldl (markerStep ln) acc = acc := by
  intro ms
  induction ms with
  | nil => intro acc _; rfl
  | cons p rest ih =>
    intro acc h
    have hp := h p (List.mem_cons_self _ _)
    rw [List.foldl_cons]
    have hstep : markerStep ln acc p = acc := by
      unfold markerStep
      rw [hp]
    rw [hstep]
    exact ih acc fun q hq => h q (List.mem_cons_of_mem _ hq)

lemma foldl_markerStep_keep (ln : List Char) (st tok : String) (i : Nat)
    (hto : rfind ln tok.data = some i) :
    ∀ ms : List (String × String),
      (∀ p ∈ ms, p = (st, tok) ∨ optLt (rfind ln p.2.data) i = true) →
      ms.foldl (markerStep ln) (some (st, i)) = some (st, i) := by
  intro ms
  induction ms with
  | nil => intro _; rfl
  | cons p rest ih =>
    intro h
    rw [List.foldl_cons]
    have hstep : markerStep ln (some (st, i)) p = some (st, i) := by
      rcases h p (List.mem_cons_self _ _) with hp | hp
      · subst hp
        unfold markerStep
        rw [hto]
        simp
      · unfold markerStep
        cases hr : rfind ln p.2.data with
        | none => rfl
        | some j =>
          have hj : j < i := by simpa [optLt, hr] using hp
          have : ¬ i < j := by omega
          simp [this]
    rw [hstep]
    exact ih fun q hq => h q (List.mem_cons_of_mem _ hq)

lemma foldl_markerStep_reach (ln : List Char) (st tok : String) (i : Nat)
    (hto : rfind ln tok.data = some i) :
    ∀ (ms : List (String × String)) (acc : Option (String × Nat)),
      (st, tok) ∈ ms →
      (∀ p ∈ ms, p = (st, tok) ∨ optLt (rfind ln p.2.data) i = true) →
      (acc = none ∨ ∃ s j, acc = some (s, j) ∧ j < i) →
      ms.foldl (markerStep ln) acc = some (st, i) := by
  intro ms
  induction ms with
  | nil => intro acc hmem _ _; exact absurd hmem (List.not_mem_nil _)
  | cons p rest ih =>
    intro acc hmem h hacc
    rw [List.foldl_cons]
    by_cases hp : p = (st, tok)
    · subst hp
      have hstep : markerStep ln acc (st, tok) = some (st, i) := by
        rcases hacc with rfl | ⟨s, j, rfl, hj⟩
        · unfold markerStep; rw [hto]
        · unfold markerStep; rw [hto]; simp [hj]
      rw [hstep]
      exact foldl_markerStep_keep ln st tok i hto rest
        fun q hq => h q (List.mem_cons_of_mem _ hq)
    · have hmem2 : (st, tok) ∈ rest := by
        rcases List.mem_cons.mp hmem with h1 | h1
        · exact absurd h1.symm hp
        · exact h1
      have hacc2 : markerStep ln acc p = none ∨
          ∃ s j, markerStep ln acc p = some (s, j) ∧ j < i := by
        rcases h p (List.mem_cons_self _ _) with h1 | h1
        · exact absurd h1 hp
        · cases hr : rfind ln p.2.data with
          | none =>
            have hstep : markerStep ln acc p = acc := by unfold markerStep; rw [hr]
            rw [hstep]; exact hacc
          | some j =>
            have hj : j < i := by simpa [optLt, hr] using h1
            rcases hacc with rfl | ⟨s, j', rfl, hj'⟩
            · exact Or.inr ⟨p.1, j, by unfold markerStep; rw [hr], hj⟩
            · by_cases hlt : j' < j
              · exact Or.inr ⟨p.1, j, by unfold markerStep; rw [hr]; simp [hlt], hj⟩
              · exact Or.inr ⟨s, j', by unfold markerStep; rw [hr]; simp [hlt], hj'⟩
      exact ih (markerStep ln acc p) hmem2
        (fun q hq => h q (List.mem_cons_of_mem _ hq)) hacc2

lemma bestMarker_of_strict (ln : List Char) (st tok : String) (i : Nat)
    (ms : List (String × String)) (hmem : (st, tok) ∈ ms)
    (hto : rfind ln tok.data = some i)
    (h : ∀ p ∈ ms, p ≠ (st, tok) → optLt (rfind ln p.2.data) i = true) :
    bestMarker ln ms = some (st, i) :=
  foldl_markerStep_reach ln st tok i hto ms none hmem
    (fun p hp => if hpe : p = (st, tok) then Or.inl hpe else Or.inr (h p hp hpe))
    (Or.inl rfl)

lemma bestMarker_none (ln : List Char) (ms : List (String × String))
    (h : ∀ p ∈ ms, containsSub ln p.2.data = false) :
    bestMarker ln ms = none := by
  apply foldl_markerStep_no_occ
  intro p hp
  have hc := h p hp
  cases hr : rfind ln p.2.data with
  | none => rfl
  | some j => rw [containsSub, hr] at hc; simp at hc

lemma bestMarker_status (ln : List Char) :
    ∀ (ms : List (String × String)) (acc : Option (String × Nat)) (si : String × Nat),
      ms.foldl (markerStep ln) acc = some si →
      acc = some si ∨ ∃ tok, (si.1, tok) ∈ ms := by
  intro ms
  induction ms with
  | nil => intro acc si h; exact Or.inl h
  | cons p rest ih =>
    intro acc si h
    rw [List.foldl_cons] at h
    rcases ih (markerStep ln acc p) si h with h1 | ⟨tok, h1⟩
    · cases hr : rfind ln p.2.data with
      | none =>
        have hm : markerStep ln acc p = acc := by unfold markerStep; rw [hr]
        rw [hm] at h1
        exact Or.inl h1
      | some j =>
        cases acc with
        | none =>
          have hm : markerStep ln none p = some (p.1, j) := by
            unfold markerStep; rw [hr]
          rw [hm] at h1
          have hsi : si = (p.1, j) := by simpa using h1.symm
          refine Or.inr ⟨p.2, ?_⟩
          rw [hsi]
          exact List.mem_cons_self _ _
        | some f =>
          by_cases hlt : f.2 < j
          · have hm : markerStep ln (some f) p = some (p.1, j) := by
              unfold markerStep; rw [hr]; simp [hlt]
            rw [hm] at h1
            have hsi : si = (p.1, j) := by simpa using h1.symm
            refine Or.inr ⟨p.2, ?_⟩
            rw [hsi]
            exact List.mem_cons_self _ _
          · have hm : markerStep ln (some f) p = some f := by
              unfold markerStep; rw [hr]; simp [hlt]
            rw [hm] at h1
            exact Or.inl h1
    · exact Or.inr ⟨tok, List.mem_cons_of_mem _ h1⟩

lemma parseFrom_status (markers : List (String × String)) :
    ∀ (lines : List (List Char)) (g : List Char) (r : String × String × String),
      r ∈ parseFrom markers g lines → ∃ tok, (r.2.2, tok) ∈ markers := by
  intro lines
  induction lines with
  | nil => intro g r h; exact absurd h (List.not_mem_nil _)
  | cons ln rest ih =>
    intro g r h
    rw [parseFrom_cons] at h
    by_cases ht : containsSub ln TOGGLE
    · rw [if_pos ht] at h
      exact ih _ r h
    · rw [if_neg ht] at h
      cases hb : bestMarker ln markers with
      | none => rw [hb] at h; exact ih g r h
      | some si =>
        rw [hb] at h
        rcases List.mem_cons.mp h with h1 | h1
        · rcases bestMarker_status ln markers none si hb with h2 | ⟨tok, h2⟩
          · exact absurd h2 (by simp)
          · refine ⟨tok, ?_⟩
            have : r.2.2 = si.1 := by rw [h1]
            rw [this]
            exact h2
        · exact ih g r h1

lemma parseFrom_group (markers : List (String × String)) :
    ∀ (lines : List (List Char)) (g : List Char),
      (∀ ln ∈ lines, containsSub ln TOGGLE = false) →
      ∀ r ∈ parseFrom markers g lines, r.1 = String.mk g := by
  intro lines
  induction lines with
  | nil => intro g _ r h; exact absurd h (List.not_mem_nil _)
  | cons ln rest ih =>
    intro g hng r h
    rw [parseFrom_cons] at h
    have ht : ¬ (containsSub ln TOGGLE = true) := by
      rw [hng ln (List.mem_cons_self _ _)]; simp
    rw [if_neg ht] at h
    cases hb : bestMarker ln markers with
    | none =>
      rw [hb] at h
      exact ih g (fun l hl => hng l (List.mem_cons_of_mem _ hl)) r h
    | some si =>
      rw [hb] at h
      rcases List.mem_cons.mp h with h1 | h1
      · rw [h1]
      · exact ih g (fun l hl => hng l (List.mem_cons_of_mem _ hl)) r h1

/-! ## Helper lemmas about the dict model and the differ -/

lemma dget_some (m : List (String × String)) (k v : String)
    (h : dget m k = some v) : ∃ q ∈ m, q.1 = k ∧ q.2 = v := by
  unfold dget at h
  cases hf : m.find? (fun p => p.1 == k) with
  | none => rw [hf] at h; simp at h
  | some q =>
    rw [hf] at h
    refine ⟨q, List.mem_of_find?_eq_some hf, ?_, ?_⟩
    · have := List.find?_some hf
      simpa using this
    · simpa using h

lemma dget_eq_some_iff {m : List (String × String)}
    (h : (m.map Prod.fst).Nodup) (k v : String) :
    dget m k = some v ↔ (k, v) ∈ m := by
  induction m with
  | nil => simp [dget]
  | cons p rest ih =>
    rw [List.map_cons, List.nodup_cons] at h
    by_cases hk : p.1 = k
    · have hfind : dget (p :: rest) k = some p.2 := by
        unfold dget
        rw [List.find?_cons_of_pos _ (by simpa using hk)]
        rfl
      rw [hfind]
      constructor
      · intro hv
        have : v = p.2 := by simpa using hv.symm
        rw [this, ← hk]
        exact List.mem_cons_self _ _
      · intro hv
        rcases List.mem_cons.mp hv with h1 | h1
        · rw [← h1]
        · exfalso
          apply h.1
          rw [hk]
          exact List.mem_map.mpr ⟨(k, v), h1, by simp⟩
    · have hfind : dget (p :: rest) k = dget rest k := by
        unfold dget
        rw [List.find?_cons_of_neg _ (by simpa using hk)]
      rw [hfind, ih h.2]
      constructor
      · exact List.mem_cons_of_mem _
      · intro hv
        rcases List.mem_cons.mp hv with h1 | h1
        · exact absurd (congrArg Prod.fst h1.symm) hk
        · exact h1

lemma mem_newlyOpen_iff {cur prev : List (String × String)}
    (h : (cur.map Prod.fst).Nodup) (k : String) :
    k ∈ newlyOpen cur prev ↔
      dget cur k = some "Open" ∧ ¬ dget prev k = some "Open" := by
  unfold newlyOpen
  rw [List.mem_insertionSort]
  constructor
  · intro hk
    rcases List.mem_map.mp hk with ⟨p, hp, hpk⟩
    rcases List.mem_filter.mp hp with ⟨hpm, hcond⟩
    rw [Bool.and_eq_true] at hcond
    obtain ⟨hopen, hprev⟩ := hcond
    have hpo : p.2 = "Open" := by simpa using hopen
    have hpair : (k, "Open") ∈ cur := by
      have : p = (k, "Open") := by
        rcases p with ⟨a, b⟩
        simp only at hpk hpo
        rw [hpk, hpo]
      rw [← this]
      exact hpm
    refine ⟨(dget_eq_some_iff h k "Open").mpr hpair, ?_⟩
    intro hcontra
    rw [← hpk] at hcontra
    rw [hcontra] at hprev
    simp at hprev
  · rintro ⟨hcur, hprev⟩
    rcases dget_some cur k "Open" hcur with ⟨q, hqm, hqk, hqv⟩
    refine List.mem_map.mpr ⟨q, List.mem_filter.mpr ⟨hqm, ?_⟩, hqk⟩
    rw [Bool.and_eq_true]
    refine ⟨by simp [hqv], ?_⟩
    rw [hqk]
    simpa using hprev

lemma newlyOpen_sorted (cur prev : List (String × String)) :
    List.Sorted (· ≤ ·) (newlyOpen cur prev) :=
  List.sorted_insertionSort _ _

lemma newlyOpen_nil (prev : List (String × String)) :
    newlyOpen [] prev = [] := rfl

/-! ## Helper lemmas about snapshot assembly -/

lemma dinsert_mem {m : List (String × String)} {k v : String}
    {kv : String × String} (h : kv ∈ dinsert m k v) : kv ∈ m ∨ kv = (k, v) := by
  unfold dinsert at h
  by_cases ha : m.any (fun p => p.1 == k)
  · rw [if_pos ha] at h
    rcases List.mem_map.mp h with ⟨p, hp, hpk⟩
    by_cases hcase : p.1 = k
    · rw [if_pos (by simpa using hcase)] at hpk
      exact Or.inr hpk.symm
    · rw [if_neg (by simpa using hcase)] at hpk
      rw [← hpk]
      exact Or.inl hp
  · rw [if_neg ha] at h
    rcases List.mem_append.mp h with h1 | h1
    · exact Or.inl h1
    · exact Or.inr (by simpa using h1)

lemma foldl_liftStep_mem :
    ∀ (items : List (String × String × String)) (acc : List (String × String))
      (kv : String × String), kv ∈ items.foldl liftStep acc →
      kv ∈ acc ∨ ∃ r ∈ items, kv = (entityKey r.1 r.2.1, r.2.2) := by
  intro items
  induction items with
  | nil => intro acc kv h; exact Or.inl h
  | cons r rest ih =>
    intro acc kv h
    rw [List.foldl_cons] at h
    rcases ih (liftStep acc r) kv h with h1 | ⟨q, hq, hkv⟩
    · rcases dinsert_mem h1 with h2 | h2
      · exact Or.inl h2
      · exact Or.inr ⟨r, List.mem_cons_self _ _, h2⟩
    · exact Or.inr ⟨q, List.mem_cons_of_mem _ hq, hkv⟩

lemma foldl_tgStep_mem_trails :
    ∀ (items : List (String × String × String))
      (acc : List (String × String) × List (String × String))
      (kv : String × String), kv ∈ (items.foldl tgStep acc).1 →
      kv ∈ acc.1 ∨ ∃ r ∈ items, is_gate_row r.1 r.2.1 = false ∧
        kv = (entityKey r.1 r.2.1, r.2.2) := by
  intro items
  induction items with
  | nil => intro acc kv h; exact Or.inl h
  | cons r rest ih =>
    intro acc kv h
    rw [List.foldl_cons] at h
    rcases ih (tgStep acc r) kv h with h1 | ⟨q, hq, hg, hkv⟩
    · by_cases hgate : is_gate_row r.1 r.2.1
      · have : (tgStep acc r).1 = acc.1 := by unfold tgStep; rw [if_pos hgate]
        rw [this] at h1
        exact Or.inl h1
      · have : (tgStep acc r).1 = dinsert acc.1 (entityKey r.1 r.2.1) r.2.2 := by
          unfold tgStep; rw [if_neg hgate]
        rw [this] at h1
        rcases dinsert_mem h1 with h2 | h2
        · exact Or.inl h2
        · exact Or.inr ⟨r, List.mem_cons_self _ _, by simpa using hgate, h2⟩
    · exact Or.inr ⟨q, List.mem_cons_of_mem _ hq, hg, hkv⟩

lemma foldl_tgStep_mem_gates :
    ∀ (items : List (String × String × String))
      (acc : List (String × String) × List (String × String))
      (kv : String × String), kv ∈ (items.foldl tgStep acc).2 →
      kv ∈ acc.2 ∨ ∃ r ∈ items, is_gate_row r.1 r.2.1 = true ∧
        kv = (entityKey r.1 r.2.1, r.2.2) := by
  intro items
  induction items with
  | nil => intro acc kv h; exact Or.inl h
  | cons r rest ih =>
    intro acc kv h
    rw [List.foldl_cons] at h
    rcases ih (tgStep acc r) kv h with h1 | ⟨q, hq, hg, hkv⟩
    · by_cases hgate : is_gate_row r.1 r.2.1
      · have : (tgStep acc r).2 = dinsert acc.2 (entityKey r.1 r.2.1) r.2.2 := by
          unfold tgStep; rw [if_pos hgate]
        rw [this] at h1
        rcases dinsert_mem h1 with h2 | h2
        · exact Or.inl h2
        · exact Or.inr ⟨r, List.mem_cons_self _ _, hgate, h2⟩
      · have : (tgStep acc r).2 = acc.2 := by unfold tgStep; rw [if_neg hgate]
        rw [this] at h1
        exact Or.inl h1
    · exact Or.inr ⟨q, List.mem_cons_of_mem _ hq, hg, hkv⟩

/-! ## Helper lemmas about `setdefault` -/

lemma any_key_iff (fields : List (String × JVal)) (k : String) :
    fields.any (fun p => p.1 == k) = true ↔ k ∈ fields.map Prod.fst := by
  rw [List.any_eq_true]
  constructor
  · rintro ⟨p, hp, hpk⟩
    exact List.mem_map.mpr ⟨p, hp, by simpa using hpk⟩
  · intro h
    rcases List.mem_map.mp h with ⟨p, hp, hpk⟩
    exact ⟨p, hp, by simpa using hpk⟩

lemma mem_keys_setdefault_self (fields : List (String × JVal)) (k : String) (v : JVal) :
    k ∈ (setdefault fields k v).map Prod.fst := by
  unfold setdefault
  by_cases ha : fields.any (fun p => p.1 == k) = true
  · rw [if_pos ha]
    exact (any_key_iff fields k).mp ha
  · rw [if_neg ha, List.map_append]
    simp

lemma mem_keys_setdefault_of (fields : List (String × JVal)) (k : String) (v : JVal)
    (k' : String) (h : k' ∈ fields.map Prod.fst) :
    k' ∈ (setdefault fields k v).map Prod.fst := by
  unfold setdefault
  by_cases ha : fields.any (fun p => p.1 == k) = true
  · rw [if_pos ha]; exact h
  · rw [if_neg ha, List.map_append]
    exact List.mem_append.mpr (Or.inl h)

lemma setdefault_mem_pair (fields : List (String × JVal)) (k : String) (v : JVal)
    {kv : String × JVal} (h : kv ∈ fields) : kv ∈ setdefault fields k v := by
  unfold setdefault
  by_cases ha : fields.any (fun p => p.1 == k) = true
  · rw [if_pos ha]; exact h
  · rw [if_neg ha]; exact List.mem_append.mpr (Or.inl h)

lemma setdefault_absent (fields : List (String × JVal)) (k : String) (v : JVal)
    (h : k ∉ fields.map Prod.fst) : (k, v) ∈ setdefault fields k v := by
  unfold setdefault
  rw [if_neg (fun ha => h ((any_key_iff fields k).mp ha))]
  exact List.mem_append.mpr (Or.inr (by simp))

lemma keys_setdefault_absent (fields : List (String × JVal)) (k : String) (v : JVal)
    (k' : String) (h : k' ∉ fields.map Prod.fst) (hne : k' ≠ k) :
    k' ∉ (setdefault fields k v).map Prod.fst := by
  unfold setdefault
  by_cases ha : fields.any (fun p => p.1 == k) = true
  · rw [if_pos ha]; exact h
  · rw [if_neg ha, List.map_append]
    intro hmem
    rcases List.mem_append.mp hmem with h1 | h1
    · exact h h1
    · exact hne (by simpa using h1)

/-! ## Helper lemmas about the entity key -/

lemma entityKey_data (g n : String) :
    (entityKey g n).data = g.data ++ (' ' :: ':' :: ':' :: ' ' :: n.data) := by
  unfold entityKey
  rw [String.data_append, String.data_append, List.append_assoc]
  rfl

lemma sep_split_inj : ∀ (a₁ a₂ b₁ b₂ : List Char),
    (∀ c ∈ a₁, c ≠ ':') → (∀ c ∈ a₂, c ≠ ':') →
    a₁ ++ (' ' :: ':' :: ':' :: ' ' :: b₁) = a₂ ++ (' ' :: ':' :: ':' :: ' ' :: b₂) →
    a₁ = a₂ ∧ b₁ = b₂ := by
  intro a₁
  induction a₁ with
  | nil =>
    intro a₂ b₁ b₂ _ h₂ heq
    cases a₂ with
    | nil =>
      simp only [List.nil_append, List.cons.injEq, true_and] at heq
      exact ⟨rfl, heq⟩
    | cons c t =>
      exfalso
      simp only [List.nil_append, List.cons_append, List.cons.injEq] at heq
      obtain ⟨_, heq2⟩ := heq
      cases t with
      | nil =>
        simp only [List.nil_append, List.cons.injEq] at heq2
        exact absurd heq2.1 (by decide)
      | cons c2 t2 =>
        simp only [List.cons_append, List.cons.injEq] at heq2
        exact h₂ c2 (by simp) heq2.1.symm
  | cons c t ih =>
    intro a₂ b₁ b₂ h₁ h₂ heq
    cases a₂ with
    | nil =>
      exfalso
      simp only [List.nil_append, List.cons_append, List.cons.injEq] at heq
      obtain ⟨_, heq2⟩ := heq
      cases t with
      | nil =>
        simp only [List.nil_append, List.cons.injEq] at heq2
        exact absurd heq2.1 (by decide)
      | cons c2 t2 =>
        simp only [List.cons_append, List.cons.injEq] at heq2
        exact h₁ c2 (by simp) heq2.1
    | cons c2 t2 =>
      simp only [List.cons_append, List.cons.injEq] at heq
      obtain ⟨hc, heq2⟩ := heq
      have hrec := ih t2 b₁ b₂ (fun x hx => h₁ x (List.mem_cons_of_mem _ hx))
        (fun x hx => h₂ x (List.mem_cons_of_mem _ hx)) heq2
      exact ⟨by rw [hc, hrec.1], hrec.2⟩

lemma entityKey_inj {g₁ n₁ g₂ n₂ : String}
    (h₁ : ∀ c ∈ g₁.data, c ≠ ':') (h₂ : ∀ c ∈ g₂.data, c ≠ ':')
    (h : entityKey g₁ n₁ = entityKey g₂ n₂) : g₁ = g₂ ∧ n₁ = n₂ := by
  have hd := congrArg String.data h
  rw [entityKey_data, entityKey_data] at hd
  have hsplit := sep_split_inj g₁.data g₂.data n₁.data n₂.data h₁ h₂ hd
  exact ⟨String.ext hsplit.1, String.ext hsplit.2⟩

/-! ## Helper lemmas about the gate regex -/

lemma lastNonWord_iff (pre : List Char) :
    lastNonWord pre = true ↔
      pre = [] ∨ ∃ c, pre.getLast? = some c ∧ isWordChar c = false := by
  unfold lastNonWord
  cases h : pre.getLast? with
  | none =>
    simp only [true_iff]
    exact Or.inl (List.getLast?_eq_none_iff.mp h)
  | some c =>
    simp only [Bool.not_eq_true']
    constructor
    · intro hw
      exact Or.inr ⟨c, rfl, hw⟩
    · rintro (rfl | ⟨c2, hc2, hw⟩)
      · simp at h
      · have hcc : c2 = c := by
          simpa using hc2.symm
        rw [← hcc]
        exact hw

lemma gateRegexCore_iff (s : List Char) :
    gateRegexCore s = true ↔ ∃ pre g4, s = pre ++ g4 ∧
      lowerData g4 = "gate".data ∧ lastNonWord pre = true ∧ ∀ c ∈ pre, c ≠ '\n' := by
  unfold gateRegexCore
  simp only [Bool.and_eq_true, decide_eq_true_eq, beq_iff_eq, List.all_eq_true,
    Bool.not_eq_true', beq_eq_false_iff_ne, ne_eq]
  constructor
  · rintro ⟨⟨⟨hlen, hg⟩, hb⟩, hnl⟩
    exact ⟨s.take (s.length - 4), s.drop (s.length - 4),
      (List.take_append_drop _ _).symm, hg, hb, hnl⟩
  · rintro ⟨pre, g4, rfl, hg, hb, hnl⟩
    have hg4len : g4.length = 4 := by
      have hlen2 := congrArg List.length hg
      simpa [lowerData] using hlen2
    have hlen : (pre ++ g4).length = pre.length + 4 := by
      simp [hg4len]
    have hsub : (pre ++ g4).length - 4 = pre.length := by omega
    have htake : (pre ++ g4).take ((pre ++ g4).length - 4) = pre := by
      rw [hsub]
      exact List.take_left _ _
    have hdrop : (pre ++ g4).drop ((pre ++ g4).length - 4) = g4 := by
      rw [hsub]
      exact List.drop_left _ _
    refine ⟨⟨⟨by omega, by rw [hdrop]; exact hg⟩, by rw [htake]; exact hb⟩, ?_⟩
    rw [htake]
    exact hnl

lemma gateRegexMatch_iff (s : List Char) :
    gateRegexMatch s = true ↔ GateWordMatch s := by
  unfold gateRegexMatch GateWordMatch
  rw [Bool.or_eq_true, Bool.and_eq_true]
  constructor
  · rintro (hcore | ⟨hlast, hcore⟩)
    · rcases (gateRegexCore_iff s).mp hcore with ⟨pre, g4, rfl, hg, hb, hnl⟩
      exact ⟨pre, g4, [], by simp, hg, Or.inl rfl, (lastNonWord_iff pre).mp hb, hnl⟩
    · have hl : s.getLast? = some '\n' := by simpa using hlast
      have hs : s.dropLast ++ ['\n'] = s :=
        List.dropLast_append_getLast? '\n' (by simp [Option.mem_def, hl])
      rcases (gateRegexCore_iff s.dropLast).mp hcore with ⟨pre, g4, hsplit, hg, hb, hnl⟩
      refine ⟨pre, g4, ['\n'], ?_, hg, Or.inr rfl, (lastNonWord_iff pre).mp hb, hnl⟩
      rw [← hs, hsplit, List.append_assoc]
  · rintro ⟨pre, g4, tail, rfl, hg, htail, hb, hnl⟩
    rcases htail with rfl | rfl
    · left
      apply (gateRegexCore_iff _).mpr
      exact ⟨pre, g4, by simp, hg, (lastNonWord_iff pre).mpr hb, hnl⟩
    · right
      constructor
      · have hlast : (pre ++ g4 ++ ['\n']).getLast? = some '\n' := by
          rw [List.append_assoc, ← List.append_assoc pre g4 ['\n']]
          exact List.getLast?_concat _
        simp [hlast]
      · apply (gateRegexCore_iff _).mpr
        refine ⟨pre, g4, ?_, hg, (lastNonWord_iff pre).mpr hb, hnl⟩
        exact List.dropLast_concat

/-! ## Claim theorems -/

/-- C1 (amended): for every entity kind and any current group, a line that
does not contain the section-toggle sentinel yields no record when no marker
token of the kind occurs in it; and when a marker token occurs whose
rightmost occurrence starts strictly furthest to the right among all present
tokens (at index `i`), exactly one record is emitted, whose status is that
marker's label and whose name is the line's prefix before index `i`,
trimmed.  (The original claim is falsified by sentinel lines, see the
counterexample.)  The first conjunct ties `parse_items_from_full_page` to
the explicit scanner `parseFrom` started at group `"Unknown"`. -/
theorem C1_line_classifier (kind : String) (markers : List (String × String))
    (hk : markers = if kind == "lifts" then LIFT_MARKERS else TRAIL_MARKERS)
    (g ln : List Char) (rest : List (List Char)) (lines : List String)
    (hnt : containsSub ln TOGGLE = false) :
    parse_items_from_full_page lines kind =
        parseFrom markers "Unknown".data (lines.map String.data)
    ∧ ((∀ p ∈ markers, containsSub ln p.2.data = false) →
        parseFrom markers g (ln :: rest) = parseFrom markers g rest)
    ∧ (∀ st tok i, (st, tok) ∈ markers → rfind ln tok.data = some i →
        (∀ p ∈ markers, p ≠ (st, tok) → optLt (rfind ln p.2.data) i = true) →
        parseFrom markers g (ln :: rest) =
          (String.mk g, String.mk (trimChars (ln.take i)), st) ::
            parseFrom markers g rest) := by
  subst hk
  refine ⟨rfl, ?_, ?_⟩
  · intro h
    rw [parseFrom_cons, if_neg (by simp [hnt]), bestMarker_none ln _ h]
  · intro st tok i hmem hto hdom
    rw [parseFrom_cons, if_neg (by simp [hnt]),
      bestMarker_of_strict ln st tok i _ hmem hto hdom]

/-- Witness for C1: the lift row `"John Paul Lift Open"` scanned at group
`"Needles"` emits exactly the record `("Needles", "John Paul", "Open")`. -/
theorem C1_witness :
    parseFrom LIFT_MARKERS "Needles".data ["John Paul Lift Open".data] =
      [("Needles", "John Paul", "Open")] := by
  have h := (C1_line_classifier "lifts" LIFT_MARKERS (by decide) "Needles".data
    "John Paul Lift Open".data [] [] (by decide)).2.2 "Open" "Lift Open" 10
    (by decide) (by decide) (by decide)
  exact h.trans (by decide)

/-- Counterexample to C1 as stated: the line
`"A Toggle accordion Lift Open"` contains the lift marker token
`"Lift Open"`, yet the classifier emits no record for it, because the
section-toggle branch takes priority. -/
theorem C1_counterexample :
    ("Open", "Lift Open") ∈ LIFT_MARKERS ∧
    containsSub "A Toggle accordion Lift Open".data "Lift Open".data = true ∧
    parse_items_from_full_page ["A Toggle accordion Lift Open"] "lifts" = [] :=
  ⟨by decide, by decide, by decide⟩

/-- C5 (confirmed): the classifier starts from the group `"Unknown"`;
a line containing the sentinel `"Toggle accordion"` updates the group to
that line with all sentinel occurrences removed and the result trimmed and
emits no record (even if a marker token is also present); and on any run of
sentinel-free lines every emitted record carries the current group. -/
theorem C5_group_tracking :
    (∀ (lines : List String) (kind : String),
      parse_items_from_full_page lines kind =
        parseFrom (if kind == "lifts" then LIFT_MARKERS else TRAIL_MARKERS)
          "Unknown".data (lines.map String.data))
    ∧ (∀ (markers : List (String × String)) (g ln : List Char)
        (rest : List (List Char)), containsSub ln TOGGLE = true →
        parseFrom markers g (ln :: rest) =
          parseFrom markers (trimChars (replaceAll TOGGLE [] ln)) rest)
    ∧ (∀ (markers : List (String × String)) (g : List Char)
        (lines : List (List Char)),
        (∀ ln ∈ lines, containsSub ln TOGGLE = false) →
        ∀ r ∈ parseFrom markers g lines, r.1 = String.mk g) := by
  refine ⟨fun _ _ => rfl, ?_, fun markers g lines h => parseFrom_group markers lines g h⟩
  intro markers g ln rest ht
  rw [parseFrom_cons, if_pos ht]

/-- Witness for C5: the sentinel line `"Needles Toggle accordion"` switches
the group (no record even though a following row matches), and the record
emitted for `"John Paul Lift Open"` carries the group `"Needles"`. -/
theorem C5_witness :
    parseFrom LIFT_MARKERS "Unknown".data
        ["Needles Toggle accordion".data, "John Paul Lift Open".data] =
      parseFrom LIFT_MARKERS
        (trimChars (replaceAll TOGGLE [] "Needles Toggle accordion".data))
        ["John Paul Lift Open".data] ∧
    ("Needles", "John Paul", "Open").1 = String.mk "Needles".data := by
  constructor
  · exact C5_group_tracking.2.1 LIFT_MARKERS "Unknown".data
      "Needles Toggle accordion".data ["John Paul Lift Open".data] (by decide)
  · exact C5_group_tracking.2.2 LIFT_MARKERS "Needles".data
      ["John Paul Lift Open".data] (by decide) ("Needles", "John Paul", "Open")
      (by decide)

/-- C2 (confirmed): for any current and previous category mapping (the
current one with duplicate-free keys, as every Python dict has), a key is in
the newly-open list iff the current mapping maps it to exactly `"Open"` and
the previous mapping does not (including absence); and the list is sorted
ascending. -/
theorem C2_newly_open (cur prev : List (String × String))
    (h : (cur.map Prod.fst).Nodup) :
    (∀ k, k ∈ newlyOpen cur prev ↔
      dget cur k = some "Open" ∧ ¬ dget prev k = some "Open")
    ∧ List.Sorted (· ≤ ·) (newlyOpen cur prev) :=
  ⟨fun k => mem_newlyOpen_iff h k, newlyOpen_sorted cur prev⟩

/-- Witness for C2: the spec's own scenario — previous status `"Closed"`,
current status `"Open"` — makes the key newly open, and the output list is
sorted. -/
theorem C2_witness :
    ((([("Needles :: John Paul", "Open")] : List (String × String)).map
        Prod.fst).Nodup)
    ∧ ("Needles :: John Paul" ∈
        newlyOpen [("Needles :: John Paul", "Open")]
          [("Needles :: John Paul", "Closed")] ↔
        dget [("Needles :: John Paul", "Open")] "Needles :: John Paul" =
            some "Open" ∧
          ¬ dget [("Needles :: John Paul", "Closed")] "Needles :: John Paul" =
              some "Open")
    ∧ List.Sorted (· ≤ ·)
        (newlyOpen [("Needles :: John Paul", "Open")]
          [("Needles :: John Paul", "Closed")]) := by
  refine ⟨by decide, ?_, ?_⟩
  · exact (C2_newly_open [("Needles :: John Paul", "Open")]
      [("Needles :: John Paul", "Closed")] (by decide)).1 "Needles :: John Paul"
  · exact (C2_newly_open [("Needles :: John Paul", "Open")]
      [("Needles :: John Paul", "Closed")] (by decide)).2

/-- C3 (confirmed): a run notifies iff the previous snapshot is not an
all-empty (first-run) snapshot and at least one of the three newly-open
lists is non-empty; in particular a first run never notifies. -/
theorem C3_notification_iff (cur prev : Snapshot) :
    (∃ l t g, (mainModel cur prev).2 = RunResult.notified l t g) ↔
      (firstRun prev = false ∧
        (newlyOpen cur.lifts prev.lifts ≠ [] ∨
         newlyOpen cur.trails prev.trails ≠ [] ∨
         newlyOpen cur.gates prev.gates ≠ [])) := by
  show (∃ l t g, runDecision cur prev = RunResult.notified l t g) ↔ _
  unfold runDecision
  by_cases hs : (cur.lifts.isEmpty && cur.trails.isEmpty && cur.gates.isEmpty) = true
  · rw [if_pos hs]
    simp only [Bool.and_eq_true, List.isEmpty_iff] at hs
    constructor
    · rintro ⟨l, t, g, hlt⟩
      exact absurd hlt (by simp)
    · rintro ⟨-, hne⟩
      exfalso
      rcases hne with hne | hne | hne
      · exact hne (by rw [hs.1.1, newlyOpen_nil])
      · exact hne (by rw [hs.1.2, newlyOpen_nil])
      · exact hne (by rw [hs.2, newlyOpen_nil])
  · rw [if_neg hs]
    by_cases hf : firstRun prev = true
    · rw [if_pos hf]
      constructor
      · rintro ⟨l, t, g, hlt⟩
        exact absurd hlt (by simp)
      · rintro ⟨hf2, -⟩
        rw [hf] at hf2
        exact absurd hf2 (by simp)
    · rw [if_neg hf]
      have hf3 : firstRun prev = false := by
        cases hq : firstRun prev
        · rfl
        · exact absurd hq hf
      by_cases hn : ((newlyOpen cur.lifts prev.lifts).isEmpty &&
          (newlyOpen cur.trails prev.trails).isEmpty &&
          (newlyOpen cur.gates prev.gates).isEmpty) = true
      · rw [if_pos hn]
        simp only [Bool.and_eq_true, List.isEmpty_iff] at hn
        constructor
        · rintro ⟨l, t, g, hlt⟩
          exact absurd hlt (by simp)
        · rintro ⟨-, hne⟩
          rcases hne with hne | hne | hne
          · exact absurd hn.1.1 hne
          · exact absurd hn.1.2 hne
          · exact absurd hn.2 hne
      · rw [if_neg hn]
        constructor
        · intro _
          refine ⟨hf3, ?_⟩
          by_contra hcon
          push_neg at hcon
          apply hn
          simp only [Bool.and_eq_true, List.isEmpty_iff]
          exact ⟨⟨hcon.1, hcon.2.1⟩, hcon.2.2⟩
        · intro _
          exact ⟨_, _, _, rfl⟩

/-- C4 (amended): when classification yields all three category mappings
empty, the run does abort with the structural error, but the saved state is
the empty current snapshot — `save_state(current)` runs before the check,
so the prior snapshot is overwritten. -/
theorem C4_structural_failure (cur prev : Snapshot)
    (h : cur.lifts = [] ∧ cur.trails = [] ∧ cur.gates = []) :
    (mainModel cur prev).2 = RunResult.structuralError ∧
      (mainModel cur prev).1 = cur := by
  refine ⟨?_, rfl⟩
  show runDecision cur prev = RunResult.structuralError
  unfold runDecision
  have hc : (cur.lifts.isEmpty && cur.trails.isEmpty && cur.gates.isEmpty) = true := by
    rw [h.1, h.2.1, h.2.2]
    rfl
  rw [if_pos hc]

/-- Witness for C4 (amended): a concrete all-empty current snapshot aborts
with the structural error and is itself the saved state. -/
theorem C4_witness :
    (mainModel ⟨[], [], []⟩ ⟨[("A", "Open")], [], []⟩).2 =
        RunResult.structuralError ∧
      (mainModel ⟨[], [], []⟩ ⟨[("A", "Open")], [], []⟩).1 = ⟨[], [], []⟩ :=
  C4_structural_failure ⟨[], [], []⟩ ⟨[("A", "Open")], [], []⟩ ⟨rfl, rfl, rfl⟩

/-- Counterexample to C4 as stated: with a non-empty prior snapshot and an
all-empty classification, the run raises the structural error but the state
written by `save_state` is the empty current snapshot, not the prior one —
the prior good snapshot is overwritten. -/
theorem C4_counterexample :
    (mainModel ⟨[], [], []⟩ ⟨[("Needles :: John Paul", "Closed")], [], []⟩).2 =
        RunResult.structuralError
    ∧ (mainModel ⟨[], [], []⟩ ⟨[("Needles :: John Paul", "Closed")], [], []⟩).1 =
        ⟨[], [], []⟩
    ∧ (mainModel ⟨[], [], []⟩ ⟨[("Needles :: John Paul", "Closed")], [], []⟩).1 ≠
        ⟨[("Needles :: John Paul", "Closed")], [], []⟩ :=
  ⟨rfl, rfl, by decide⟩

/-- C6 (amended): `is_gate_row` is total and returns true exactly when the
name matches the gate regex (the whole word `Gate`, case-insensitively,
at the end of the string or just before a single trailing newline, with a
newline-free prefix), or the name is one of the enumerated special gate
names, or the lowercased group contains `"access gates"`.  (The original
claim's plain "ends with the whole word Gate" reading is falsified by the
trailing-newline behaviour of Python's `$`, see the counterexample.) -/
theorem C6_gate_rule (group name : String) :
    is_gate_row group name = true ↔
      (GateWordMatch name.data ∨ name ∈ GATE_SPECIAL_NAMES ∨
        containsSub (lowerData group.data) "access gates".data = true) := by
  unfold is_gate_row
  constructor
  · intro h
    split_ifs at h with h1 h2 h3
    · exact Or.inl ((gateRegexMatch_iff _).mp h1)
    · refine Or.inr (Or.inl ?_)
      rcases List.contains_iff_exists_mem_beq.mp h2 with ⟨b, hb, hbeq⟩
      have hnb : name = b := by simpa using hbeq
      rw [hnb]
      exact hb
    · exact Or.inr (Or.inr h3)
  · intro h
    split_ifs with h1 h2 h3
    · rfl
    · rfl
    · rfl
    · exfalso
      rcases h with h | h | h
      · exact h1 ((gateRegexMatch_iff _).mpr h)
      · exact h2 (List.contains_iff_exists_mem_beq.mpr ⟨name, h, by simp⟩)
      · exact h3 h

/-- Witness for C6 (amended): the special name `"The Wallow"` under the
group `"Access Gates"` satisfies the characterization. -/
theorem C6_witness :
    is_gate_row "Access Gates" "The Wallow" = true ↔
      (GateWordMatch "The Wallow".data ∨ "The Wallow" ∈ GATE_SPECIAL_NAMES ∨
        containsSub (lowerData "Access Gates".data) "access gates".data = true) :=
  C6_gate_rule "Access Gates" "The Wallow"

/-- Counterexample to C6 as stated: `is_gate_row` accepts the name
`"Gate\n"` (Python's `$` matches before the trailing newline) although it
does not end with the word `Gate`, and rejects `"a\nb Gate"` (the `.*`
prefix cannot cross a newline) although it does end with the word `Gate`;
the claim's plain reading `is_gate_row_claim` decides both the other way. -/
theorem C6_counterexample :
    is_gate_row "Needles" "Gate\n" = true ∧
    is_gate_row_claim "Needles" "Gate\n" = false ∧
    is_gate_row "Needles" "a\nb Gate" = false ∧
    is_gate_row_claim "Needles" "a\nb Gate" = true :=
  ⟨by decide, by decide, by decide, by decide⟩

/-- C7 (amended): every status value stored in a category mapping of the
assembled snapshot is drawn from that category's marker label set (lifts:
Open/Closed/On Hold/Scheduled/Delayed; trails and gates:
Open/Closed/Expected/Delayed).  (The original claim's non-empty-name part
is falsified by a line that begins with a marker token, see the
counterexample.) -/
theorem C7_status_labels (lines : List String) :
    (∀ kv ∈ (buildSnapshot lines).lifts,
      kv.2 ∈ (["Open", "Closed", "On Hold", "Scheduled", "Delayed"] : List String))
    ∧ (∀ kv ∈ (buildSnapshot lines).trails,
      kv.2 ∈ (["Open", "Closed", "Expected", "Delayed"] : List String))
    ∧ (∀ kv ∈ (buildSnapshot lines).gates,
      kv.2 ∈ (["Open", "Closed", "Expected", "Delayed"] : List String)) := by
  have hlift : ∀ r ∈ parse_items_from_full_page lines "lifts",
      r.2.2 ∈ (["Open", "Closed", "On Hold", "Scheduled", "Delayed"] : List String) := by
    intro r hr
    rcases parseFrom_status _ _ _ r hr with ⟨tok, htok⟩
    have htok2 : (r.2.2, tok) ∈ LIFT_MARKERS := htok
    simp only [LIFT_MARKERS, List.mem_cons, List.not_mem_nil, or_false,
      Prod.mk.injEq] at htok2
    rcases htok2 with ⟨h1, -⟩ | ⟨h1, -⟩ | ⟨h1, -⟩ | ⟨h1, -⟩ | ⟨h1, -⟩ <;> simp [h1]
  have htrail : ∀ r ∈ parse_items_from_full_page lines "trails",
      r.2.2 ∈ (["Open", "Closed", "Expected", "Delayed"] : List String) := by
    intro r hr
    rcases parseFrom_status _ _ _ r hr with ⟨tok, htok⟩
    have htok2 : (r.2.2, tok) ∈ TRAIL_MARKERS := htok
    simp only [TRAIL_MARKERS, List.mem_cons, List.not_mem_nil, or_false,
      Prod.mk.injEq] at htok2
    rcases htok2 with ⟨h1, -⟩ | ⟨h1, -⟩ | ⟨h1, -⟩ | ⟨h1, -⟩ <;> simp [h1]
  refine ⟨?_, ?_, ?_⟩
  · intro kv hkv
    rcases foldl_liftStep_mem _ [] kv hkv with h1 | ⟨r, hr, hkv2⟩
    · exact absurd h1 (List.not_mem_nil _)
    · rw [hkv2]
      exact hlift r hr
  · intro kv hkv
    rcases foldl_tgStep_mem_trails _ ([], []) kv hkv with h1 | ⟨r, hr, -, hkv2⟩
    · exact absurd h1 (List.not_mem_nil _)
    · rw [hkv2]
      exact htrail r hr
  · intro kv hkv
    rcases foldl_tgStep_mem_gates _ ([], []) kv hkv with h1 | ⟨r, hr, -, hkv2⟩
    · exact absurd h1 (List.not_mem_nil _)
    · rw [hkv2]
      exact htrail r hr

/-- Witness for C7 (amended): the entry produced by
`"John Paul Lift Open"` carries a status in the lift label set. -/
theorem C7_witness :
    (("Unknown :: John Paul", "Open") : String × String).2 ∈
      (["Open", "Closed", "On Hold", "Scheduled", "Delayed"] : List String) :=
  (C7_status_labels ["John Paul Lift Open"]).1 ("Unknown :: John Paul", "Open")
    (by decide)

/-- Counterexample to C7 as stated: the line `"Lift Open"` begins with the
marker token, so the emitted record has the empty name, and its key
`"Unknown :: "` enters the lifts mapping — a key that comes from no record
with a non-empty name. -/
theorem C7_counterexample :
    parse_items_from_full_page ["Lift Open"] "lifts" = [("Unknown", "", "Open")] ∧
    (buildSnapshot ["Lift Open"]).lifts = [("Unknown :: ", "Open")] ∧
    ∀ r ∈ parse_items_from_full_page ["Lift Open"] "lifts", r.2.1 = "" :=
  ⟨by decide, by decide, by decide⟩

/-- C8 (amended): the trails and gates mappings of one run are disjoint
provided any two trail-like records that collide on the same entity key
agree on gate classification.  (Unconditionally the claim is false: the
`" :: "` separator lets distinct `(group, name)` pairs collide on one key
with opposite classifications, see the counterexample.) -/
theorem C8_trails_gates_disjoint (lines : List String)
    (h : ∀ r₁ ∈ parse_items_from_full_page lines "trails",
         ∀ r₂ ∈ parse_items_from_full_page lines "trails",
         entityKey r₁.1 r₁.2.1 = entityKey r₂.1 r₂.2.1 →
         is_gate_row r₁.1 r₁.2.1 = is_gate_row r₂.1 r₂.2.1) :
    ∀ k, ¬(k ∈ (buildSnapshot lines).trails.map Prod.fst ∧
           k ∈ (buildSnapshot lines).gates.map Prod.fst) := by
  rintro k ⟨ht, hg⟩
  rcases List.mem_map.mp ht with ⟨kv1, hkv1, hk1⟩
  rcases List.mem_map.mp hg with ⟨kv2, hkv2, hk2⟩
  rcases foldl_tgStep_mem_trails _ ([], []) kv1 hkv1 with h1 | ⟨r1, hr1, hg1, hkv1e⟩
  · exact absurd h1 (List.not_mem_nil _)
  · rcases foldl_tgStep_mem_gates _ ([], []) kv2 hkv2 with h2 | ⟨r2, hr2, hg2, hkv2e⟩
    · exact absurd h2 (List.not_mem_nil _)
    · have hkeys : entityKey r1.1 r1.2.1 = entityKey r2.1 r2.2.1 := by
        have e1 : kv1.1 = entityKey r1.1 r1.2.1 := by rw [hkv1e]
        have e2 : kv2.1 = entityKey r2.1 r2.2.1 := by rw [hkv2e]
        rw [← e1, ← e2, hk1, hk2]
      have hagree := h r1 hr1 r2 hr2 hkeys
      rw [hg1, hg2] at hagree
      exact absurd hagree (by simp)

/-- Witness for C8 (amended): on a page whose records have collision-free
keys the two mappings are disjoint at the gate's key. -/
theorem C8_witness :
    ¬("Access Gates :: East Fork Gate" ∈
        (buildSnapshot ["Access Gates Toggle accordion",
          "East Fork Gate Trail Open", "Needles Toggle accordion",
          "Main Run Trail Open"]).trails.map Prod.fst ∧
      "Access Gates :: East Fork Gate" ∈
        (buildSnapshot ["Access Gates Toggle accordion",
          "East Fork Gate Trail Open", "Needles Toggle accordion",
          "Main Run Trail Open"]).gates.map Prod.fst) :=
  C8_trails_gates_disjoint ["Access Gates Toggle accordion",
    "East Fork Gate Trail Open", "Needles Toggle accordion",
    "Main Run Trail Open"] (by decide) "Access Gates :: East Fork Gate"

/-- Counterexample to C8 as stated: the records
`("x", "Access Gates :: Y")` (a trail) and `("x :: Access Gates", "Y")`
(a gate) collide on the key `"x :: Access Gates :: Y"`, which therefore
appears in both the trails and the gates mapping of the same run. -/
theorem C8_counterexample :
    "x :: Access Gates :: Y" ∈
      (buildSnapshot ["x Toggle accordion", "Access Gates :: Y Trail Open",
        "x :: Access Gates Toggle accordion", "Y Trail Open"]).trails.map
        Prod.fst ∧
    "x :: Access Gates :: Y" ∈
      (buildSnapshot ["x Toggle accordion", "Access Gates :: Y Trail Open",
        "x :: Access Gates Toggle accordion", "Y Trail Open"]).gates.map
        Prod.fst :=
  ⟨by decide, by decide⟩

/-- C9 (amended): loading with no state file yields the first-run snapshot
(three empty category mappings) without error; and loading any well-formed
JSON object yields a state in which all three category fields are present,
with absent ones defaulted to empty objects (other fields are preserved).
(The original claim's malformed-input part is falsified: malformed content
raises instead of defaulting, see the counterexample.) -/
theorem C9_load_state :
    load_state none = Except.ok
        [("lifts", JVal.obj []), ("trails", JVal.obj []), ("gates", JVal.obj [])]
    ∧ ∀ fields : List (String × JVal), ∃ out,
        load_state (some (some (JVal.obj fields))) = Except.ok out ∧
        ("lifts" ∈ out.map Prod.fst ∧ "trails" ∈ out.map Prod.fst ∧
          "gates" ∈ out.map Prod.fst) ∧
        (∀ c ∈ (["lifts", "trails", "gates"] : List String),
          c ∉ fields.map Prod.fst → (c, JVal.obj []) ∈ out) := by
  refine ⟨rfl, ?_⟩
  intro fields
  refine ⟨_, rfl, ⟨?_, ?_, ?_⟩, ?_⟩
  · exact mem_keys_setdefault_of _ _ _ _ (mem_keys_setdefault_of _ _ _ _
      (mem_keys_setdefault_self fields "lifts" _))
  · exact mem_keys_setdefault_of _ _ _ _ (mem_keys_setdefault_self _ "trails" _)
  · exact mem_keys_setdefault_self _ "gates" _
  · intro c hc habs
    have hc3 : c = "lifts" ∨ c = "trails" ∨ c = "gates" := by simpa using hc
    rcases hc3 with rfl | rfl | rfl
    · exact setdefault_mem_pair _ _ _ (setdefault_mem_pair _ _ _
        (setdefault_absent fields "lifts" _ habs))
    · refine setdefault_mem_pair _ _ _ (setdefault_absent _ "trails" _ ?_)
      exact keys_setdefault_absent fields "lifts" _ "trails" habs (by decide)
    · refine setdefault_absent _ "gates" _ ?_
      refine keys_setdefault_absent _ "trails" _ "gates" ?_ (by decide)
      exact keys_setdefault_absent fields "lifts" _ "gates" habs (by decide)

/-- Witness for C9 (amended): loading an object with one unrelated field succeeds
and the `lifts` category is present, defaulted to the empty mapping. -/
theorem C9_witness :
    ∃ out, load_state (some (some (JVal.obj [("extra", JVal.other)]))) =
        Except.ok out ∧ "lifts" ∈ out.map Prod.fst ∧
        ("lifts", JVal.obj []) ∈ out := by
  rcases C9_load_state.2 [("extra", JVal.other)] with ⟨out, hout, ⟨h1, -, -⟩, h2⟩
  exact ⟨out, hout, h1, h2 "lifts" (by simp) (by decide)⟩

/-- Counterexample to C9 as stated: a present-but-malformed state file makes
`load_state` raise (`json.load` propagates `JSONDecodeError`) instead of
yielding the first-run snapshot; and a well-formed object with an extra
field keeps that fourth field, so the loaded snapshot does not consist of
exactly the three category mappings. -/
theorem C9_counterexample :
    load_state (some none) = Except.error "json.JSONDecodeError" ∧
    load_state (some (some (JVal.obj [("extra", JVal.other)]))) =
      Except.ok [("extra", JVal.other), ("lifts", JVal.obj []),
        ("trails", JVal.obj []), ("gates", JVal.obj [])] :=
  ⟨rfl, rfl⟩

/-- C10 (amended): the entity key (group and name joined by the separator)
is deterministic,
and distinct `(group, name)` pairs yield distinct keys provided the group
labels contain no colon.  (Unconditionally the separator is ambiguous:
`("x :: Access Gates", "Y")` and `("x", "Access Gates :: Y")` collide, see
the counterexample.) -/
theorem C10_entity_key (g1 n1 g2 n2 : String)
    (h1 : ∀ c ∈ g1.data, c ≠ ':') (h2 : ∀ c ∈ g2.data, c ≠ ':') :
    entityKey g1 n1 = entityKey g2 n2 ↔ (g1 = g2 ∧ n1 = n2) := by
  constructor
  · exact fun h => entityKey_inj h1 h2 h
  · rintro ⟨rfl, rfl⟩
    rfl

/-- Witness for C10 (amended): two distinct colon-free pairs with the same
group compare keys exactly as the pairs themselves. -/
theorem C10_witness :
    entityKey "Needles" "John Paul" = entityKey "Needles" "Strawberry" ↔
      (("Needles" : String) = "Needles" ∧ ("John Paul" : String) = "Strawberry") :=
  C10_entity_key "Needles" "John Paul" "Needles" "Strawberry"
    (by decide) (by decide)

/-- Counterexample to C10 as stated: two distinct `(group, name)` pairs
producing the same entity key — the `" :: "` separator is ambiguous. -/
theorem C10_counterexample :
    entityKey "x :: Access Gates" "Y" = entityKey "x" "Access Gates :: Y" ∧
      ("x :: Access Gates", "Y") ≠ (("x", "Access Gates :: Y") : String × String) :=
  ⟨by decide, by decide⟩

/-- Witness for C3: the spec's scenario — one lift newly open against a
non-empty previous snapshot — instantiates the notification criterion. -/
theorem C3_witness :
    (∃ l t g, (mainModel ⟨[("Needles :: John Paul", "Open")], [], []⟩
        ⟨[("Needles :: John Paul", "Closed")], [], []⟩).2 =
        RunResult.notified l t g) ↔
      (firstRun ⟨[("Needles :: John Paul", "Closed")], [], []⟩ = false ∧
        (newlyOpen (Snapshot.mk [("Needles :: John Paul", "Open")] [] []).lifts
            (Snapshot.mk [("Needles :: John Paul", "Closed")] [] []).lifts ≠ [] ∨
         newlyOpen (Snapshot.mk [("Needles :: John Paul", "Open")] [] []).trails
            (Snapshot.mk [("Needles :: John Paul", "Closed")] [] []).trails ≠ [] ∨
         newlyOpen (Snapshot.mk [("Needles :: John Paul", "Open")] [] []).gates
            (Snapshot.mk [("Needles :: John Paul", "Closed")] [] []).gates ≠ [])) :=
  C3_notification_iff ⟨[("Needles :: John Paul", "Open")], [], []⟩
    ⟨[("Needles :: John Paul", "Closed")], [], []⟩
